import Mathlib

/-!
Shallow embedding of the two example programs of the pywisp tool repository:
the host-side TCP server (src/examples/tcp/pc-server/main.cpp) and the
embedded Arduino Due server (src/examples/arduino-due/server/arm/server.cpp).

Modelling conventions:
* C `unsigned long` time values are modelled as `ℕ` (no claim under scrutiny
  depends on wrap-around of the 32/64-bit counters).
* C `double`/`float` values are modelled as exact rationals `ℚ`.
* The host trajectory computation is embedded as an `Option ℚ`: `none` marks
  the event "the interpolation branch executed its division with a zero
  denominator", which the source would perform as a floating division by zero.
* Mutation through pointers becomes explicit state passing; functions of the
  Transport library that are not part of the repository sources are modelled
  from the specification and say so in their doc comments.
-/

namespace PyWisp

/-- Test-rig data struct (`Transport::benchData`); only the field `lTime`
    (elapsed experiment time in ms) is read or written by the example code. -/
structure BenchData where
  lTime : ℕ
deriving DecidableEq, Repr

/-- Trajectory descriptor struct (`Transport::trajData`). -/
structure TrajData where
  lStartTime : ℕ
  lEndTime : ℕ
  dStartValue : ℚ
  dEndValue : ℚ
  dOutput : ℚ
deriving DecidableEq, Repr

/-- Session-level transport state visible to the control tick: the run flag
    reported by `Transport::runExp()` and the keepalive timestamp
    `Transport::keepaliveTime` (last inbound activity). -/
structure Session where
  running : Bool
  keepaliveTime : ℕ
deriving DecidableEq, Repr

/-- Observable actions of one control tick, in program order. -/
inductive Ev where
  | handleFrames
  | trajectoryStep
  | sendData
  | keepaliveCheck (postTime : ℕ) (deadline : ℕ)
  | resetEv
deriving DecidableEq, Repr

/-- Recognizes the keepalive supervisor check among tick events. -/
def isKeepaliveCheck : Ev → Bool
  | Ev.keepaliveCheck _ _ => true
  | _ => false

namespace PcServer

/-- Sampling step of the host variant, ms (`const unsigned long lDt = 1000`). -/
def lDt : ℕ := 1000

/-- Value computed by the host `fTrajectory` (main.cpp lines 22-34) for the
    elapsed time `_benchData->lTime`, following the source's branch structure:
    hold `dStartValue` before `lStartTime`, interpolate via the slope/intercept
    pair `dM`, `dN` strictly before `lEndTime`, hold `dEndValue` afterwards.
    `none` records that the interpolation division ran with denominator zero. -/
def fTrajectoryOut (b : BenchData) (t : TrajData) : Option ℚ :=
  if b.lTime < t.lStartTime then
    some t.dStartValue
  else
    if b.lTime < t.lEndTime then
      if t.lEndTime = t.lStartTime then
        none
      else
        let dM : ℚ := (t.dEndValue - t.dStartValue) / ((t.lEndTime : ℚ) - (t.lStartTime : ℚ))
        let dN : ℚ := t.dEndValue - dM * (t.lEndTime : ℚ)
        some (dM * (b.lTime : ℚ) + dN)
    else
      some t.dEndValue

/-- State-update form of the host `fTrajectory`: the function writes only the
    field `_trajData->dOutput` (the `getD` default is irrelevant: the `none`
    case is proved unreachable). -/
def fTrajectory (b : BenchData) (t : TrajData) : TrajData :=
  { t with dOutput := (fTrajectoryOut b t).getD t.dOutput }

/-- Full transport state touched by the host control loop. -/
structure TransportState where
  benchData : BenchData
  session : Session
  trajData : TrajData
deriving DecidableEq, Repr

/-- Decoded inbound command frames, as the spec describes them: a command
    authorizing the experiment run, an explicit reset command, a frame
    installing or replacing the trajectory descriptor, and any other valid
    inbound frame. -/
inductive Cmd where
  | start
  | resetCmd
  | descriptor (t : TrajData)
  | other
deriving DecidableEq, Repr

/-- Modelled from the spec: the effect of processing one valid inbound frame
    inside `Transport::handleFrames` (Transport-internal, not in the
    sources). Every valid frame updates the last-activity timestamp; a start
    command authorizes the run; an explicit reset command resets the
    experiment state (`elapsedTime` to 0, `running` to false) and clears the
    in-progress trajectory descriptor; a descriptor frame installs or
    replaces the trajectory descriptor. -/
def applyFrame (s : TransportState) (c : Cmd) : TransportState :=
  match c with
  | Cmd.start =>
      { s with session := { running := true, keepaliveTime := s.benchData.lTime } }
  | Cmd.resetCmd =>
      { benchData := { lTime := 0 },
        session := { running := false, keepaliveTime := 0 },
        trajData := { lStartTime := 0, lEndTime := 0,
                      dStartValue := 0, dEndValue := 0, dOutput := 0 } }
  | Cmd.descriptor t =>
      { s with trajData := t,
               session := { s.session with keepaliveTime := s.benchData.lTime } }
  | Cmd.other =>
      { s with session := { s.session with keepaliveTime := s.benchData.lTime } }

/-- Modelled from the spec: `Transport::handleFrames` drains the pending
    inbound frames in arrival order, applying each in turn. -/
def handleFrames (pending : List Cmd) (s : TransportState) : TransportState :=
  pending.foldl applyFrame s

/-- Host control tick `fContLoop` (main.cpp lines 41-51): handle pending
    frames, then, when `runExp()` holds, advance `lTime` by `lDt`, run
    `fTrajectory` and send telemetry. There is no keepalive check in this
    variant. -/
def fContLoop (pending : List Cmd) (s : TransportState) : TransportState × List Ev :=
  let s1 : TransportState := handleFrames pending s
  if s1.session.running then
    let b2 : BenchData := { lTime := s1.benchData.lTime + lDt }
    let t2 : TrajData := fTrajectory b2 s1.trajData
    ({ s1 with benchData := b2, trajData := t2 },
     [Ev.handleFrames, Ev.trajectoryStep, Ev.sendData])
  else
    (s1, [Ev.handleFrames])

/-- Outcome classes of the host run loop (spec section 7 taxonomy). -/
inductive Fault where
  | connectionError
  | keepaliveTimeout
  | tickOverrun
  | unexpected (msg : String)
deriving DecidableEq, Repr

/-- Expected faults are handled without raising an exception. -/
def Fault.isExpected : Fault → Bool
  | Fault.unexpected _ => false
  | _ => true

/-- Modelled from the spec: the run loop body inside the `try` block of
    `main` (scheduler, TCP server, worker threads; the library internals are
    not in the sources). Per spec section 7, connection errors are caught at
    the transport boundary, keepalive timeouts reset the experiment, and tick
    overruns skip the tick, so none of them escapes; only an unexpected fault
    escapes as a `std::exception` carrying its message. -/
def runLoopEscape : List Fault → Option String
  | [] => none
  | Fault.unexpected m :: _ => some m
  | _ :: fs => runLoopEscape fs

/-- Host `main` (main.cpp lines 55-80) as a function of the faults the run
    loop encounters: an escaping exception is caught at top level, its
    message is written to standard error, and in every case the process
    returns exit status 0. Result: (standard-error lines, exit status). -/
def main (faults : List Fault) : List String × ℕ :=
  match runLoopEscape faults with
  | none => ([], 0)
  | some m => ([m], 0)

end PcServer

namespace ArduinoServer

/-- Sampling step of the embedded variant, ms (`const unsigned long lDt = 100`). -/
def lDt : ℕ := 100

/-- Keepalive timeout, ms (`const unsigned long lKeepalive = 500`). -/
def lKeepalive : ℕ := 500

/-- Pin constant `Ausgang_B = 23`. -/
def Ausgang_B : ℕ := 23

/-- Pin constant `Ausgang_D = 25`. -/
def Ausgang_D : ℕ := 25

/-- Calibration constant `yGes = 186`. -/
def yGes : ℕ := 186

/-- Calibration constant `xGes = 246`. -/
def xGes : ℕ := 246

/-- Result of one `Messung()` call (server.cpp lines 27-60): the
    `digitalWrite` select-line toggles in order, the new values of the
    globals `y`, `x` and `sensorValue`, for the two `analogRead(Eingang_E)`
    results `r1` (first read, used for `y`) and `r2` (second read, used for
    `x`, which is also the return value). `yGes/2` and `xGes/2` are C integer
    divisions. -/
structure MessungResult where
  pinWrites : List (ℕ × Bool)
  y : ℚ
  x : ℚ
  sensorValue : ℕ
deriving DecidableEq, Repr

/-- The measurement routine `Messung` of the embedded variant. -/
def Messung (r1 r2 : ℕ) : MessungResult :=
  let yv : ℚ := ((yGes : ℚ) * ((r1 : ℚ) - 278) / (691 - 278) - ((yGes / 2 : ℕ) : ℚ) + 2) * (1 / 1000)
  let xv : ℚ := (-(xGes : ℚ) * ((r2 : ℚ) - 258) / (718 - 258) + ((xGes / 2 : ℕ) : ℚ) + 6) * (1 / 1000)
  { pinWrites := [(Ausgang_B, true), (Ausgang_D, false), (Ausgang_B, false), (Ausgang_D, true)],
    y := yv, x := xv, sensorValue := r2 }

/-- Program state touched by the embedded control loop: the transport state
    plus the file-scope globals `x`, `y`, `sensorValue`. -/
structure State where
  benchData : BenchData
  session : Session
  trajData : TrajData
  x : ℚ
  y : ℚ
  sensorValue : ℕ
deriving DecidableEq, Repr

/-- Embedded `fTrajectory` (server.cpp lines 94-108): the interpolation code
    is commented out; the active body is `x = Messung(); _trajData->dOutput = x;`
    for the two analog readings `r1`, `r2` performed inside `Messung`. -/
def fTrajectory (r1 r2 : ℕ) (s : State) : State :=
  let m := Messung r1 r2
  { s with x := m.x, y := m.y, sensorValue := m.sensorValue,
           trajData := { s.trajData with dOutput := m.x } }

/-- Modelled from the spec: `Transport::reset` is Transport-internal (not in
    the sources); per the spec lifecycle it resets the experiment state on
    keepalive expiry (`elapsedTime` to 0, `running` to false) and clears the
    in-progress trajectory descriptor. -/
def transportReset (s : State) : State :=
  { s with benchData := { lTime := 0 },
           session := { s.session with running := false },
           trajData := { lStartTime := 0, lEndTime := 0,
                         dStartValue := 0, dEndValue := 0, dOutput := 0 } }

/-- Embedded control tick `fContLoop` (server.cpp lines 114-129),
    parameterized over the keepalive constant `T` (source value
    `lKeepalive = 500`) and the two analog readings of the tick: when
    `runExp()` holds, advance `lTime` by `lDt`, run `fTrajectory`, send
    telemetry, then perform the keepalive check
    `T != 0 && lTime > keepaliveTime + T` and reset on expiry. -/
def fContLoop (T r1 r2 : ℕ) (s : State) : State × List Ev :=
  if s.session.running then
    let s1 : State := { s with benchData := { lTime := s.benchData.lTime + lDt } }
    let s2 : State := fTrajectory r1 r2 s1
    let post : ℕ := s2.benchData.lTime
    let deadline : ℕ := s2.session.keepaliveTime + T
    if T ≠ 0 ∧ deadline < post then
      (transportReset s2,
       [Ev.trajectoryStep, Ev.sendData, Ev.keepaliveCheck post deadline, Ev.resetEv])
    else
      (s2, [Ev.trajectoryStep, Ev.sendData, Ev.keepaliveCheck post deadline])
  else
    (s, [])

end ArduinoServer

/-- Commanded value of the host trajectory computation as a plain rational
    (default 0 is never used: the computation is proved total). -/
def trajValue (lt : ℕ) (t : TrajData) : ℚ := (PcServer.fTrajectoryOut ⟨lt⟩ t).getD 0

/-- Concrete degenerate descriptor with `lStartTime = lEndTime`. -/
def tEq : TrajData :=
  { lStartTime := 3, lEndTime := 3, dStartValue := 5, dEndValue := 7, dOutput := 0 }

/-- Concrete ramp descriptor with `lStartTime < lEndTime`. -/
def tRamp : TrajData :=
  { lStartTime := 2, lEndTime := 6, dStartValue := 1, dEndValue := 3, dOutput := 0 }

/-- All-zero descriptor (initial value of `Transport::trajData`). -/
def tZero : TrajData :=
  { lStartTime := 0, lEndTime := 0, dStartValue := 0, dEndValue := 0, dOutput := 0 }

/-- Concrete embedded state: running, last activity at 0, elapsed 450 ms. -/
def sEmbW : ArduinoServer.State :=
  { benchData := { lTime := 450 }, session := { running := true, keepaliveTime := 0 },
    trajData := tZero, x := 0, y := 0, sensorValue := 0 }

/-- Concrete embedded state: running, last activity at 0, elapsed 1000 ms,
    past the keepalive deadline. -/
def sEmbX : ArduinoServer.State :=
  { benchData := { lTime := 1000 }, session := { running := true, keepaliveTime := 0 },
    trajData := tZero, x := 0, y := 0, sensorValue := 0 }

/-- Concrete embedded state for the trajectory-purity claims. -/
def sEmbY : ArduinoServer.State :=
  { benchData := { lTime := 0 }, session := { running := true, keepaliveTime := 0 },
    trajData := tZero, x := 0, y := 0, sensorValue := 0 }

/-- Concrete embedded state with the experiment stopped. -/
def sEmbStop : ArduinoServer.State :=
  { benchData := { lTime := 450 }, session := { running := false, keepaliveTime := 0 },
    trajData := tZero, x := 0, y := 0, sensorValue := 0 }

/-- Concrete host transport state: running, last activity at 0. -/
def sHostW : PcServer.TransportState :=
  { benchData := { lTime := 0 }, session := { running := true, keepaliveTime := 0 },
    trajData := tRamp }

/-- Interpolation branch value, in closed form. -/
theorem fTrajectoryOut_interp (b : BenchData) (t : TrajData)
    (h1 : t.lStartTime ≤ b.lTime) (h2 : b.lTime < t.lEndTime) :
    PcServer.fTrajectoryOut b t =
      some (t.dStartValue + (t.dEndValue - t.dStartValue) *
        ((b.lTime : ℚ) - (t.lStartTime : ℚ)) / ((t.lEndTime : ℚ) - (t.lStartTime : ℚ))) := by
  have hlt : t.lStartTime < t.lEndTime := lt_of_le_of_lt h1 h2
  have h0 : ¬ b.lTime < t.lStartTime := not_lt.mpr h1
  have h3 : t.lEndTime ≠ t.lStartTime := Nat.ne_of_gt hlt
  have hne : ((t.lEndTime : ℚ) - (t.lStartTime : ℚ)) ≠ 0 := by
    have : (t.lStartTime : ℚ) < (t.lEndTime : ℚ) := by exact_mod_cast hlt
    linarith
  simp only [PcServer.fTrajectoryOut, if_neg h0, if_pos h2, if_neg h3]
  congr 1
  field_simp
  ring

/-- Claim C1 (amended): for every descriptor with `startTime == endTime` and
    every elapsed time, the host `fTrajectory` performs no division by zero —
    the interpolation branch is unreachable and the result is always defined —
    and the output equals `endValue` whenever `elapsedTime ≥ startTime`
    (strictly before `startTime` it equals `startValue`). -/
theorem eqTimes_no_div_by_zero (b : BenchData) (t : TrajData)
    (h : t.lStartTime = t.lEndTime) :
    (PcServer.fTrajectoryOut b t).isSome = true ∧
    (t.lStartTime ≤ b.lTime → PcServer.fTrajectoryOut b t = some t.dEndValue) ∧
    (b.lTime < t.lStartTime → PcServer.fTrajectoryOut b t = some t.dStartValue) := by
  rcases Nat.lt_or_ge b.lTime t.lStartTime with h1 | h1
  · have h2 : ¬ t.lStartTime ≤ b.lTime := by omega
    simp [PcServer.fTrajectoryOut, h1, h2]
  · have h2 : ¬ b.lTime < t.lStartTime := by omega
    have h3 : ¬ b.lTime < t.lEndTime := by omega
    simp [PcServer.fTrajectoryOut, h2, h3]

/-- Witness for `eqTimes_no_div_by_zero` at the degenerate descriptor `tEq`. -/
theorem eqTimes_no_div_by_zero_witness :
    tEq.lStartTime = tEq.lEndTime ∧
    (PcServer.fTrajectoryOut ⟨3⟩ tEq).isSome = true ∧
    PcServer.fTrajectoryOut ⟨3⟩ tEq = some tEq.dEndValue :=
  ⟨by decide, (eqTimes_no_div_by_zero ⟨3⟩ tEq (by decide)).1,
   (eqTimes_no_div_by_zero ⟨3⟩ tEq (by decide)).2.1 (by decide)⟩

/-- Counterexample to claim C1 as stated: on `tEq` (equal start and end time,
    `startValue = 5`, `endValue = 7`) at elapsed time 0 the output is the
    start value, not the end value. -/
theorem eqTimes_output_cex :
    tEq.lStartTime = tEq.lEndTime ∧
    PcServer.fTrajectoryOut ⟨0⟩ tEq ≠ some tEq.dEndValue := by
  exact ⟨by decide, by decide⟩

/-- Claim C4: for every descriptor with `startTime < endTime` the host
    trajectory computation holds the endpoint values outside the ramp:
    before `startTime` the output is exactly `startValue`, and from `endTime`
    on it is exactly `endValue`. -/
theorem hold_phase_values (b : BenchData) (t : TrajData)
    (h : t.lStartTime < t.lEndTime) :
    (b.lTime < t.lStartTime → PcServer.fTrajectoryOut b t = some t.dStartValue) ∧
    (t.lEndTime ≤ b.lTime → PcServer.fTrajectoryOut b t = some t.dEndValue) := by
  constructor
  · intro h1
    simp [PcServer.fTrajectoryOut, h1]
  · intro h1
    have h2 : ¬ b.lTime < t.lStartTime := by omega
    have h3 : ¬ b.lTime < t.lEndTime := by omega
    simp [PcServer.fTrajectoryOut, h2, h3]

/-- Witness for `hold_phase_values` on the ramp descriptor `tRamp`. -/
theorem hold_phase_values_witness :
    tRamp.lStartTime < tRamp.lEndTime ∧
    PcServer.fTrajectoryOut ⟨0⟩ tRamp = some tRamp.dStartValue ∧
    PcServer.fTrajectoryOut ⟨10⟩ tRamp = some tRamp.dEndValue :=
  ⟨by decide, (hold_phase_values ⟨0⟩ tRamp (by decide)).1 (by decide),
   (hold_phase_values ⟨10⟩ tRamp (by decide)).2 (by decide)⟩

/-- Claim C5: for every descriptor with `startTime < endTime`, evaluating the
    host trajectory computation at `elapsedTime == startTime` yields exactly
    `startValue`, although the interpolation branch computes it through the
    slope/intercept pair `dM`, `dN` with `dN` derived from `endValue`. -/
theorem compute_at_startTime (t : TrajData) (h : t.lStartTime < t.lEndTime) :
    PcServer.fTrajectoryOut ⟨t.lStartTime⟩ t = some t.dStartValue := by
  rw [fTrajectoryOut_interp ⟨t.lStartTime⟩ t (le_refl _) h]
  norm_num

/-- Witness for `compute_at_startTime` on the ramp descriptor `tRamp`. -/
theorem compute_at_startTime_witness :
    tRamp.lStartTime < tRamp.lEndTime ∧
    PcServer.fTrajectoryOut ⟨tRamp.lStartTime⟩ tRamp = some tRamp.dStartValue :=
  ⟨by decide, compute_at_startTime tRamp (by decide)⟩

/-- The defined commanded value in the interpolation range, in closed form. -/
theorem trajValue_interp (t : TrajData) (lt : ℕ)
    (h1 : t.lStartTime ≤ lt) (h2 : lt < t.lEndTime) :
    trajValue lt t = t.dStartValue + (t.dEndValue - t.dStartValue) *
      (((lt : ℚ) - (t.lStartTime : ℚ)) / ((t.lEndTime : ℚ) - (t.lStartTime : ℚ))) := by
  unfold trajValue
  rw [fTrajectoryOut_interp ⟨lt⟩ t h1 h2]
  simp [mul_div_assoc]

/-- Claim C6: for every descriptor with `startTime < endTime` and elapsed
    times strictly inside the ramp, the host trajectory computation equals
    the exact linear interpolation
    `startValue + (endValue - startValue) * (t - startTime) / (endTime - startTime)`,
    is monotone in the elapsed time (non-decreasing when
    `startValue ≤ endValue`, non-increasing otherwise), and its value lies
    between `startValue` and `endValue`. -/
theorem interp_linear_monotone_bounded (t : TrajData) (lt lt' : ℕ)
    (h1 : t.lStartTime < lt) (h2 : lt < t.lEndTime)
    (h1' : t.lStartTime < lt') (h2' : lt' < t.lEndTime) (hle : lt ≤ lt') :
    PcServer.fTrajectoryOut ⟨lt⟩ t =
      some (t.dStartValue + (t.dEndValue - t.dStartValue) *
        ((lt : ℚ) - (t.lStartTime : ℚ)) / ((t.lEndTime : ℚ) - (t.lStartTime : ℚ))) ∧
    (t.dStartValue ≤ t.dEndValue →
      trajValue lt t ≤ trajValue lt' t ∧
      t.dStartValue ≤ trajValue lt t ∧ trajValue lt t ≤ t.dEndValue) ∧
    (t.dEndValue ≤ t.dStartValue →
      trajValue lt' t ≤ trajValue lt t ∧
      t.dEndValue ≤ trajValue lt t ∧ trajValue lt t ≤ t.dStartValue) := by
  have hse : t.lStartTime < t.lEndTime := lt_trans h1 h2
  have hd : (0 : ℚ) < (t.lEndTime : ℚ) - (t.lStartTime : ℚ) := by
    have : (t.lStartTime : ℚ) < (t.lEndTime : ℚ) := by exact_mod_cast hse
    linarith
  have hv := trajValue_interp t lt (le_of_lt h1) h2
  have hv' := trajValue_interp t lt' (le_of_lt h1') h2'
  have hq0 : (0 : ℚ) ≤ ((lt : ℚ) - (t.lStartTime : ℚ)) / ((t.lEndTime : ℚ) - (t.lStartTime : ℚ)) := by
    apply div_nonneg _ (le_of_lt hd)
    have : (t.lStartTime : ℚ) ≤ (lt : ℚ) := by exact_mod_cast le_of_lt h1
    linarith
  have hq1 : ((lt : ℚ) - (t.lStartTime : ℚ)) / ((t.lEndTime : ℚ) - (t.lStartTime : ℚ)) ≤ 1 := by
    rw [div_le_one hd]
    have : (lt : ℚ) ≤ (t.lEndTime : ℚ) := by exact_mod_cast le_of_lt h2
    linarith
  have hqq : ((lt : ℚ) - (t.lStartTime : ℚ)) / ((t.lEndTime : ℚ) - (t.lStartTime : ℚ)) ≤
      ((lt' : ℚ) - (t.lStartTime : ℚ)) / ((t.lEndTime : ℚ) - (t.lStartTime : ℚ)) := by
    apply div_le_div_of_nonneg_right ?_ (le_of_lt hd)
    have : (lt : ℚ) ≤ (lt' : ℚ) := by exact_mod_cast hle
    linarith
  refine ⟨?_, ?_, ?_⟩
  · exact fTrajectoryOut_interp ⟨lt⟩ t (le_of_lt h1) h2
  · intro hmono
    have hges : (0 : ℚ) ≤ t.dEndValue - t.dStartValue := by linarith
    refine ⟨?_, ?_, ?_⟩
    · rw [hv, hv']
      nlinarith [mul_le_mul_of_nonneg_left hqq hges]
    · rw [hv]
      nlinarith [mul_nonneg hges hq0]
    · rw [hv]
      nlinarith [mul_le_mul_of_nonneg_left hq1 hges]
  · intro hmono
    have hles : t.dEndValue - t.dStartValue ≤ 0 := by linarith
    refine ⟨?_, ?_, ?_⟩
    · rw [hv, hv']
      nlinarith [mul_le_mul_of_nonpos_left hqq hles]
    · rw [hv]
      nlinarith [mul_le_mul_of_nonpos_left hq1 hles]
    · rw [hv]
      nlinarith [mul_nonpos_of_nonpos_of_nonneg hles hq0]

/-- Witness for `interp_linear_monotone_bounded` on `tRamp` at elapsed
    times 3 and 5. -/
theorem interp_linear_monotone_bounded_witness :
    tRamp.lStartTime < 3 ∧ (3 : ℕ) < tRamp.lEndTime ∧
    PcServer.fTrajectoryOut ⟨3⟩ tRamp =
      some (tRamp.dStartValue + (tRamp.dEndValue - tRamp.dStartValue) *
        ((3 : ℚ) - (tRamp.lStartTime : ℚ)) / ((tRamp.lEndTime : ℚ) - (tRamp.lStartTime : ℚ))) ∧
    trajValue 3 tRamp ≤ trajValue 5 tRamp ∧
    tRamp.dStartValue ≤ trajValue 3 tRamp ∧ trajValue 3 tRamp ≤ tRamp.dEndValue := by
  have h := interp_linear_monotone_bounded tRamp 3 5
    (by decide) (by decide) (by decide) (by decide) (by decide)
  have hm := h.2.1 (by norm_num [tRamp])
  exact ⟨by decide, by decide, h.1, hm.1, hm.2.1, hm.2.2⟩

/-- Claim C2: on an embedded control tick with keepalive timeout `T` and the
    experiment running, a zero timeout never forces `running` false, and a
    positive timeout forces `running` false exactly when the post-tick
    elapsed time exceeds `lastActivityTime + T`. -/
theorem keepalive_reset_characterization (T r1 r2 : ℕ) (s : ArduinoServer.State)
    (h : s.session.running = true) :
    (T = 0 → (ArduinoServer.fContLoop T r1 r2 s).1.session.running = true) ∧
    (0 < T →
      ((ArduinoServer.fContLoop T r1 r2 s).1.session.running = false ↔
        s.session.keepaliveTime + T < s.benchData.lTime + ArduinoServer.lDt)) := by
  simp only [ArduinoServer.fContLoop, ArduinoServer.fTrajectory,
    ArduinoServer.transportReset, h, if_true]
  split_ifs with hc
  · refine ⟨fun hT => absurd hT hc.1, fun _ => ?_⟩
    simpa using hc.2
  · rw [not_and_or] at hc
    refine ⟨fun _ => by simpa using h, fun hT => ?_⟩
    simp only [h]
    constructor
    · intro hfalse
      exact absurd hfalse (by simp)
    · intro hlt
      rcases hc with hc | hc
      · exact absurd (by omega : T ≠ 0) (by simpa using hc)
      · exact absurd hlt (by simpa using hc)

/-- Witness for `keepalive_reset_characterization` on `sEmbW` with the
    source keepalive constant 500. -/
theorem keepalive_reset_characterization_witness :
    sEmbW.session.running = true ∧ (0 : ℕ) < 500 ∧
    ((ArduinoServer.fContLoop 500 300 300 sEmbW).1.session.running = false ↔
      sEmbW.session.keepaliveTime + 500 < sEmbW.benchData.lTime + ArduinoServer.lDt) :=
  ⟨rfl, by decide, (keepalive_reset_characterization 500 300 300 sEmbW rfl).2 (by decide)⟩

/-- Counterexample to claim C3 as stated: the host control tick performs no
    keepalive check at all (zero checks, not exactly one), even with the
    experiment running. -/
theorem keepalive_check_host_absent_cex :
    sHostW.session.running = true ∧
    ¬ (PcServer.fContLoop [] sHostW).2.countP isKeepaliveCheck = 1 :=
  ⟨rfl, by decide⟩

/-- Claim C3 (amended): on every embedded control tick with the experiment
    running, the keepalive supervisor check executes exactly once, after the
    trajectory step and `sendData`, comparing the post-tick elapsed time
    against the keepalive deadline; on an embedded tick with the experiment
    stopped no check runs, and the host control tick performs no keepalive
    check at all. -/
theorem keepalive_check_placement (T r1 r2 : ℕ) (s : ArduinoServer.State)
    (pending : List PcServer.Cmd) (sh : PcServer.TransportState) :
    (s.session.running = true →
      (∃ rest, (ArduinoServer.fContLoop T r1 r2 s).2 =
          Ev.trajectoryStep :: Ev.sendData ::
            Ev.keepaliveCheck (s.benchData.lTime + ArduinoServer.lDt)
              (s.session.keepaliveTime + T) :: rest) ∧
      (ArduinoServer.fContLoop T r1 r2 s).2.countP isKeepaliveCheck = 1) ∧
    (s.session.running = false →
      (ArduinoServer.fContLoop T r1 r2 s).2.countP isKeepaliveCheck = 0) ∧
    (PcServer.fContLoop pending sh).2.countP isKeepaliveCheck = 0 := by
  refine ⟨fun h => ⟨?_, ?_⟩, fun h => ?_, ?_⟩
  · simp only [ArduinoServer.fContLoop, ArduinoServer.fTrajectory, h, if_true]
    split_ifs with hc
    · exact ⟨[Ev.resetEv], rfl⟩
    · exact ⟨[], rfl⟩
  · simp only [ArduinoServer.fContLoop, ArduinoServer.fTrajectory, h, if_true]
    split_ifs with hc <;>
      simp [List.countP_cons, isKeepaliveCheck]
  · simp [ArduinoServer.fContLoop, h]
  · simp only [PcServer.fContLoop]
    split_ifs with hc <;>
      simp [List.countP_cons, isKeepaliveCheck]

/-- Witness for `keepalive_check_placement` on the running state `sEmbW`,
    the stopped state `sEmbStop` and the host state `sHostW`. -/
theorem keepalive_check_placement_witness :
    sEmbW.session.running = true ∧
    (ArduinoServer.fContLoop 500 300 300 sEmbW).2.countP isKeepaliveCheck = 1 ∧
    sEmbStop.session.running = false ∧
    (ArduinoServer.fContLoop 500 300 300 sEmbStop).2.countP isKeepaliveCheck = 0 ∧
    (PcServer.fContLoop [] sHostW).2.countP isKeepaliveCheck = 0 :=
  ⟨rfl, ((keepalive_check_placement 500 300 300 sEmbW [] sHostW).1 rfl).2,
   rfl, (keepalive_check_placement 500 300 300 sEmbStop [] sHostW).2.1 rfl,
   (keepalive_check_placement 500 300 300 sEmbW [] sHostW).2.2⟩

/-- Counterexample to claim C7 as stated: on the embedded tick from `sEmbX`
    (running, post-tick elapsed time 1100 past the keepalive deadline 500)
    the keepalive reset fires and `lTime` ends at 0, not at the old value
    plus one sampling period. -/
theorem lTime_increment_cex :
    sEmbX.session.running = true ∧
    (ArduinoServer.fContLoop ArduinoServer.lKeepalive 300 300 sEmbX).1.benchData.lTime ≠
      sEmbX.benchData.lTime + ArduinoServer.lDt :=
  ⟨rfl, by decide⟩

/-- Processing one inbound frame either leaves `lTime` unchanged or, on an
    explicit reset command, clears it to 0. -/
theorem applyFrame_lTime (s : PcServer.TransportState) (c : PcServer.Cmd) :
    (PcServer.applyFrame s c).benchData.lTime = s.benchData.lTime ∨
    (PcServer.applyFrame s c).benchData.lTime = 0 := by
  cases c
  · exact Or.inl rfl
  · exact Or.inr rfl
  · exact Or.inl rfl
  · exact Or.inl rfl

/-- Draining the pending frames either leaves `lTime` unchanged or clears it
    to 0 (when an explicit reset command is among them). -/
theorem handleFrames_lTime (pending : List PcServer.Cmd) (s : PcServer.TransportState) :
    (PcServer.handleFrames pending s).benchData.lTime = s.benchData.lTime ∨
    (PcServer.handleFrames pending s).benchData.lTime = 0 := by
  induction pending generalizing s with
  | nil => exact Or.inl rfl
  | cons c cs ih =>
    have hfold : PcServer.handleFrames (c :: cs) s =
        PcServer.handleFrames cs (PcServer.applyFrame s c) := rfl
    rcases ih (PcServer.applyFrame s c) with h2 | h2
    · rcases applyFrame_lTime s c with h1 | h1
      · exact Or.inl (by rw [hfold, h2, h1])
      · exact Or.inr (by rw [hfold, h2, h1])
    · exact Or.inr (by rw [hfold, h2])

/-- Claim C7 (amended): on every host tick, frame handling runs first and
    either leaves `lTime` unchanged or clears it to 0 on an explicit reset
    command; the tick then leaves `lTime` unchanged when the experiment is
    not running and advances it by exactly `lDt` when it is. On every
    embedded tick `lTime` is unchanged when not running, and advances by
    exactly `lDt` when running unless the keepalive reset fires on that
    tick, which clears it to 0 (spec reset semantics). No other amount is
    ever added in either control loop. -/
theorem lTime_update_characterization (pending : List PcServer.Cmd) (T r1 r2 : ℕ)
    (sh : PcServer.TransportState) (se : ArduinoServer.State) :
    ((PcServer.handleFrames pending sh).benchData.lTime = sh.benchData.lTime ∨
     (PcServer.handleFrames pending sh).benchData.lTime = 0) ∧
    (PcServer.fContLoop pending sh).1.benchData.lTime =
      (if (PcServer.handleFrames pending sh).session.running
       then (PcServer.handleFrames pending sh).benchData.lTime + PcServer.lDt
       else (PcServer.handleFrames pending sh).benchData.lTime) ∧
    (ArduinoServer.fContLoop T r1 r2 se).1.benchData.lTime =
      (if se.session.running then
        (if T ≠ 0 ∧ se.session.keepaliveTime + T < se.benchData.lTime + ArduinoServer.lDt
         then 0 else se.benchData.lTime + ArduinoServer.lDt)
       else se.benchData.lTime) := by
  refine ⟨handleFrames_lTime pending sh, ?_, ?_⟩
  · simp only [PcServer.fContLoop]
    split_ifs <;> rfl
  · simp only [ArduinoServer.fContLoop, ArduinoServer.fTrajectory,
      ArduinoServer.transportReset]
    split_ifs <;> rfl

/-- Counterexample to claim C8 as stated: two embedded `fTrajectory` calls
    with identical `benchData` and `trajData` but different second analog
    readings produce different outputs, and the call also mutates the global
    `x` (state other than `dOutput`). -/
theorem fTrajectory_emb_not_pure_cex :
    (ArduinoServer.fTrajectory 300 300 sEmbY).trajData.dOutput ≠
      (ArduinoServer.fTrajectory 300 500 sEmbY).trajData.dOutput ∧
    (ArduinoServer.fTrajectory 300 300 sEmbY).x ≠ sEmbY.x ∧
    (ArduinoServer.fTrajectory 300 300 sEmbY).sensorValue ≠ sEmbY.sensorValue := by
  refine ⟨?_, ?_, by decide⟩ <;>
    norm_num [ArduinoServer.fTrajectory, ArduinoServer.Messung, ArduinoServer.xGes,
      ArduinoServer.yGes, sEmbY, tZero]

/-- Claim C8 (amended): the host `fTrajectory` is a pure deterministic
    function of `benchData` and `trajData` that writes only the field
    `dOutput` (all other descriptor fields unchanged; it never writes
    `benchData`); the embedded `fTrajectory` instead writes the calibrated
    value of the second analog reading into `dOutput`, so its output depends
    on the sensor readings, and it additionally mutates the globals `x`, `y`,
    `sensorValue` while `Messung` toggles the actuator select pins. -/
theorem fTrajectory_effects (b : BenchData) (t : TrajData) (r1 r2 : ℕ)
    (s : ArduinoServer.State) :
    ((PcServer.fTrajectory b t).lStartTime = t.lStartTime ∧
     (PcServer.fTrajectory b t).lEndTime = t.lEndTime ∧
     (PcServer.fTrajectory b t).dStartValue = t.dStartValue ∧
     (PcServer.fTrajectory b t).dEndValue = t.dEndValue) ∧
    ((ArduinoServer.fTrajectory r1 r2 s).trajData.dOutput = (ArduinoServer.Messung r1 r2).x ∧
     (ArduinoServer.fTrajectory r1 r2 s).benchData = s.benchData ∧
     (ArduinoServer.fTrajectory r1 r2 s).session = s.session ∧
     (ArduinoServer.fTrajectory r1 r2 s).x = (ArduinoServer.Messung r1 r2).x ∧
     (ArduinoServer.fTrajectory r1 r2 s).y = (ArduinoServer.Messung r1 r2).y ∧
     (ArduinoServer.fTrajectory r1 r2 s).sensorValue = (ArduinoServer.Messung r1 r2).sensorValue ∧
     (ArduinoServer.Messung r1 r2).sensorValue = r2 ∧
     (ArduinoServer.Messung r1 r2).pinWrites =
       [(ArduinoServer.Ausgang_B, true), (ArduinoServer.Ausgang_D, false),
        (ArduinoServer.Ausgang_B, false), (ArduinoServer.Ausgang_D, true)]) :=
  ⟨⟨rfl, rfl, rfl, rfl⟩, rfl, rfl, rfl, rfl, rfl, rfl, rfl, rfl⟩

/-- Claim C9: in the host variant an exception escaping the run loop is
    caught at top level, its message goes to standard error, the process
    exits with status 0 in every case, and none of the expected faults
    (connection error, keepalive timeout, tick overrun) produces an escaping
    exception. -/
theorem main_catches_and_exits_zero (faults : List PcServer.Fault) :
    (PcServer.main faults).2 = 0 ∧
    (∀ m, PcServer.runLoopEscape faults = some m → (PcServer.main faults).1 = [m]) ∧
    ((∀ f ∈ faults, f.isExpected = true) → (PcServer.main faults).1 = []) := by
  refine ⟨?_, ?_, ?_⟩
  · rcases hE : PcServer.runLoopEscape faults with _ | m <;> simp [PcServer.main, hE]
  · intro m hm
    simp [PcServer.main, hm]
  · intro hexp
    have hnone : PcServer.runLoopEscape faults = none := by
      induction faults with
      | nil => rfl
      | cons f fs ih =>
        cases f with
        | connectionError =>
          exact ih fun g hg => hexp g (List.mem_cons_of_mem _ hg)
        | keepaliveTimeout =>
          exact ih fun g hg => hexp g (List.mem_cons_of_mem _ hg)
        | tickOverrun =>
          exact ih fun g hg => hexp g (List.mem_cons_of_mem _ hg)
        | unexpected m =>
          have := hexp _ (List.mem_cons_self _ _)
          simp [PcServer.Fault.isExpected] at this
    simp [PcServer.main, hnone]

/-- Witness for `main_catches_and_exits_zero`: the three expected fault
    classes exit with status 0 and an empty error log; an unexpected
    exception is logged verbatim. -/
theorem main_catches_and_exits_zero_witness :
    (PcServer.main [PcServer.Fault.connectionError, PcServer.Fault.keepaliveTimeout,
      PcServer.Fault.tickOverrun]).2 = 0 ∧
    (PcServer.main [PcServer.Fault.connectionError, PcServer.Fault.keepaliveTimeout,
      PcServer.Fault.tickOverrun]).1 = [] ∧
    (PcServer.main [PcServer.Fault.unexpected "boom"]).1 = ["boom"] :=
  ⟨(main_catches_and_exits_zero _).1,
   (main_catches_and_exits_zero _).2.2 (by decide),
   (main_catches_and_exits_zero _).2.1 "boom" rfl⟩

/-- Claim C10: the embedded `fTrajectory` output is independent of the
    trajectory descriptor and of the elapsed time — any two states seeing
    the same analog readings get the same `dOutput`, namely the calibrated
    measurement returned by `Messung`. -/
theorem emb_output_sensor_only (r1 r2 : ℕ) (s s' : ArduinoServer.State) :
    (ArduinoServer.fTrajectory r1 r2 s).trajData.dOutput =
      (ArduinoServer.fTrajectory r1 r2 s').trajData.dOutput ∧
    (ArduinoServer.fTrajectory r1 r2 s).trajData.dOutput =
      (ArduinoServer.Messung r1 r2).x :=
  ⟨rfl, rfl⟩

end PyWisp
